import Mathlib

/-!
Verification of the field-editor repository: a singleton versioned record
stored in SQLite (src/db.rs) with optimistic concurrency control, exposed
through two server functions and edited by a reactive client component
(src/field_editor.rs).

The SQLite store is modelled as a pure state: a `fields` table that either
exists or not, holding a list of rows.  The `id` column is INTEGER PRIMARY
KEY; the operations of the repository only ever insert or update the row
with id 1.  The i64 columns are modelled as `Int` (signed 64-bit overflow is
unreachable from version 1 along any finite trace, so no wrap-around is
modelled).  Rust panics (`.expect("Database not initialized")`) are modelled
by the `PanicOr` result type.
-/

namespace FieldEditor

/-- Data model of src/db.rs: struct `Fields` (one table row). -/
structure Fields where
  id : Int
  field1 : String
  field2 : String
  field3 : String
  field4 : String
  version : Int
deriving DecidableEq, Repr

/-- Model of `sqlx::Error` as raised by the store layer: the error cases the
repository code can produce, plus an injected I/O failure. -/
inductive SqlxError where
  | rowNotFound
  | noSuchTable
  | ioError (msg : String)
deriving DecidableEq, Repr

/-- Model of `sqlx::Error::to_string()`. -/
def SqlxError.message : SqlxError → String
  | .rowNotFound => "no rows returned by a query that expected to return at least one row"
  | .noSuchTable => "no such table: fields"
  | .ioError m => m

/-- Result of a Rust computation that may panic (`Option::expect`). -/
inductive PanicOr (α : Type) where
  | panicked (msg : String)
  | value (v : α)
deriving DecidableEq, Repr

/-- Whether a `PanicOr` result is a panic. -/
def PanicOr.isPanic {α : Type} : PanicOr α → Bool
  | .panicked _ => true
  | .value _ => false

/-- The SQLite database file: whether `CREATE TABLE fields` has run, and the
rows of the `fields` table. -/
structure DbState where
  tableCreated : Bool
  rows : List Fields
deriving DecidableEq, Repr

/-- A fresh, empty database file. -/
def emptyDb : DbState := { tableCreated := false, rows := [] }

/-- Model of `DbManager`: the connection string and the lazily-set pool.
The pool handle itself carries no data relevant to the model. -/
structure DbManager where
  connection_string : String
  pool : Option Unit
deriving DecidableEq, Repr

/-- `DbManager::new`: stores the connection string, pool is `None`. -/
def DbManager.new (s : String) : DbManager :=
  { connection_string := s, pool := none }

/-- The default record seeded by `initialize` (src/db.rs lines 56-69). -/
def defaultFields : Fields :=
  { id := 1
    field1 := "Default value 1"
    field2 := "Default value 2"
    field3 := "Default value 3"
    field4 := "Default value 4"
    version := 1 }

/-- Model of `DbManager::initialize` (src/db.rs lines 31-73) on a reachable
store: connect, `CREATE TABLE IF NOT EXISTS fields`, `SELECT COUNT(*)`, and
if the count is zero insert the default row with version 1; finally set the
pool.  Returns the `Result`, the updated manager and the updated store. -/
def DbManager.initDb (m : DbManager) (db : DbState) :
    Except SqlxError Unit × DbManager × DbState :=
  let db1 : DbState := { db with tableCreated := true }
  let count : Nat := db1.rows.length
  let db2 : DbState :=
    if count = 0 then { db1 with rows := [defaultFields] } else db1
  (.ok (), { m with pool := some () }, db2)

/-- Model of `DbManager::get_fields` (src/db.rs lines 76-87):
`self.pool.as_ref().expect("Database not initialized")`, then
`SELECT ... FROM fields WHERE id = 1` with `fetch_one` (RowNotFound when no
row matches).  A pure SELECT: the store is not modified. -/
def DbManager.get_fields (m : DbManager) (db : DbState) :
    PanicOr (Except SqlxError Fields) :=
  match m.pool with
  | none => .panicked "Database not initialized"
  | some _ =>
    if db.tableCreated then
      match db.rows.find? (fun r => r.id == 1) with
      | some r => .value (.ok r)
      | none => .value (.error .rowNotFound)
    else .value (.error .noSuchTable)

/-- The SET clause of the UPDATE statement in `update_fields`: overwrite the
four string columns with the submitted values and increment `version` by
one; the `id` column is untouched. -/
def setClause (f1 f2 f3 f4 : String) (r : Fields) : Fields :=
  { r with field1 := f1, field2 := f2, field3 := f3, field4 := f4,
           version := r.version + 1 }

/-- Model of `DbManager::update_fields` (src/db.rs lines 90-138): panic if the
pool is unset; inside one transaction, `SELECT version FROM fields WHERE
id = 1 AND version = ?` with `fetch_optional`; if no row matches, roll back
and return `Ok(false)`; otherwise `UPDATE fields SET field1..field4,
version = version + 1 WHERE id = 1 AND version = ?`, commit, and return
`Ok(rows_affected > 0)`.  Returns the `Result` together with the store as
visible after commit or rollback. -/
def DbManager.update_fields (m : DbManager) (db : DbState)
    (f1 f2 f3 f4 : String) (expected : Int) :
    PanicOr (Except SqlxError Bool × DbState) :=
  match m.pool with
  | none => .panicked "Database not initialized"
  | some _ =>
    if db.tableCreated then
      match db.rows.find? (fun r => r.id == 1 && r.version == expected) with
      | none => .value (.ok false, db)
      | some _ =>
        let newRows := db.rows.map (fun r =>
          if r.id == 1 && r.version == expected then setClause f1 f2 f3 f4 r else r)
        let affected := db.rows.countP (fun r => r.id == 1 && r.version == expected)
        .value (.ok (decide (affected > 0)), { db with rows := newRows })
    else .value (.error .noSuchTable, db)

/-! ## Operation traces over one store

A sequential trace of repository operations against one manager and one
store, for the lifecycle invariants. -/

/-- One repository operation. -/
inductive Op where
  | initOp
  | getOp
  | updateOp (f1 f2 f3 f4 : String) (expected : Int)
deriving DecidableEq, Repr

deriving instance DecidableEq for Except

/-- The observable outcome of one operation. -/
inductive Output where
  | initRes (r : Except SqlxError Unit)
  | getRes (r : PanicOr (Except SqlxError Fields))
  | updRes (r : PanicOr (Except SqlxError Bool))
deriving DecidableEq, Repr

/-- A manager together with the store it talks to. -/
structure Config where
  mgr : DbManager
  db : DbState
deriving DecidableEq, Repr

/-- Execute one operation: dispatch to the corresponding `DbManager` method.
A SELECT leaves the store untouched; a panic aborts before any write. -/
def stepOp (op : Op) (c : Config) : Config × Output :=
  match op with
  | .initOp =>
    match c.mgr.initDb c.db with
    | (r, m1, db1) => (⟨m1, db1⟩, .initRes r)
  | .getOp => (c, .getRes (c.mgr.get_fields c.db))
  | .updateOp f1 f2 f3 f4 v =>
    match c.mgr.update_fields c.db f1 f2 f3 f4 v with
    | .panicked msg => (c, .updRes (.panicked msg))
    | .value (r, db1) => (⟨c.mgr, db1⟩, .updRes (.value r))

/-- Run a list of operations in order. -/
def runTrace : List Op → Config → Config
  | [], c => c
  | op :: ops, c => runTrace ops (stepOp op c).1

/-- The starting configuration: a fresh manager (as built by the server
functions in src/field_editor.rs) over an empty store. -/
def c0 : Config := ⟨DbManager.new "sqlite:/tmp/fields.db", emptyDb⟩

/-- The committed version of the singleton record, when it exists. -/
def recVersion (c : Config) : Option Int :=
  (c.db.rows.find? (fun r => r.id == 1)).map (fun r => r.version)

/-- Reachability invariant of the store: the `fields` table holds at most one
row, that row has id 1 and version at least 1, and a set pool implies the
table exists and is seeded. -/
def Inv (c : Config) : Prop :=
  (c.db.rows = [] ∨ ∃ r, c.db.rows = [r] ∧ r.id = 1 ∧ 1 ≤ r.version) ∧
  (c.mgr.pool = some () → c.db.tableCreated = true ∧ c.db.rows ≠ [])

/-! ## The protocol layer (src/field_editor.rs server functions)

Each server function builds a fresh `DbManager`, initializes it, performs
the repository call, and maps every `sqlx::Error` with
`ServerFnError::ServerError(e.to_string())`.  Store I/O failure is injected
through `StoreIO`, standing for the nondeterministic outcome of each
fallible await point. -/

/-- Model of the `ServerFnError` enum of the server-function layer: the
variants an error crossing the remote boundary could have.  The protocol
code only ever constructs `ServerError`. -/
inductive ServerFnError where
  | ServerError (msg : String)
  | Request (msg : String)
  | Deserialization (msg : String)
  | Serialization (msg : String)
deriving DecidableEq, Repr

/-- Outcome of one fallible store interaction: success, or an I/O error. -/
inductive StoreIO where
  | ok
  | fail (e : SqlxError)
deriving DecidableEq, Repr

/-- `DbManager::initialize` with injected I/O outcome: on failure the error
propagates via `?` and nothing is committed (the pool stays unset). -/
def DbManager.initDbIo (m : DbManager) (db : DbState) :
    StoreIO → Except SqlxError Unit × DbManager × DbState
  | .ok => m.initDb db
  | .fail e => (.error e, m, db)

/-- `DbManager::get_fields` with injected I/O outcome: the pool is checked
(and may panic) before any query runs. -/
def DbManager.getFieldsIo (m : DbManager) (db : DbState) :
    StoreIO → PanicOr (Except SqlxError Fields)
  | .ok => m.get_fields db
  | .fail e =>
    match m.pool with
    | none => .panicked "Database not initialized"
    | some _ => .value (.error e)

/-- `DbManager::update_fields` with injected I/O outcome: the pool is checked
first; a failing transaction rolls back, leaving the store unchanged. -/
def DbManager.updateFieldsIo (m : DbManager) (db : DbState)
    (f1 f2 f3 f4 : String) (expected : Int) :
    StoreIO → PanicOr (Except SqlxError Bool × DbState)
  | .ok => m.update_fields db f1 f2 f3 f4 expected
  | .fail e =>
    match m.pool with
    | none => .panicked "Database not initialized"
    | some _ => .value (.error e, db)

/-- Server function `get_fields` (src/field_editor.rs lines 9-22): fresh
manager, initialize, fetch, each error mapped to
`ServerFnError::ServerError(e.to_string())`. -/
def get_fields_server (db : DbState) (ioInit ioGet : StoreIO) :
    PanicOr (Except ServerFnError Fields × DbState) :=
  match (DbManager.new "sqlite:/tmp/fields.db").initDbIo db ioInit with
  | (.error e, _, db1) => .value (.error (.ServerError e.message), db1)
  | (.ok _, m1, db1) =>
    match m1.getFieldsIo db1 ioGet with
    | .panicked msg => .panicked msg
    | .value (.error e) => .value (.error (.ServerError e.message), db1)
    | .value (.ok f) => .value (.ok f, db1)

/-- Server function `update_fields` (src/field_editor.rs lines 24-47): fresh
manager, initialize, version-checked update, each error mapped to
`ServerFnError::ServerError(e.to_string())`. -/
def update_fields_server (db : DbState) (f1 f2 f3 f4 : String) (v : Int)
    (ioInit ioUpd : StoreIO) :
    PanicOr (Except ServerFnError Bool × DbState) :=
  match (DbManager.new "sqlite:/tmp/fields.db").initDbIo db ioInit with
  | (.error e, _, db1) => .value (.error (.ServerError e.message), db1)
  | (.ok _, m1, db1) =>
    match m1.updateFieldsIo db1 f1 f2 f3 f4 v ioUpd with
    | .panicked msg => .panicked msg
    | .value (.error e, db2) => .value (.error (.ServerError e.message), db2)
    | .value (.ok b, db2) => .value (.ok b, db2)

/-! ## The client component (src/field_editor.rs `FieldEditor`)

The reactive signals become a record; the `create_effect` that copies a
delivered fetch into the edit buffer and the save-completion handler become
pure transition functions. -/

/-- The client's reactive signals: the four edit-buffer fields, the locally
held version, the notice flag and the saving flag. -/
structure ClientState where
  edit_field1 : String
  edit_field2 : String
  edit_field3 : String
  edit_field4 : String
  version : Int
  show_error : Bool
  saving : Bool
deriving DecidableEq, Repr

/-- The `create_effect` (src/field_editor.rs lines 72-80): when the fields
resource delivers `Ok(data)`, copy the server record into the edit buffer
and the local version; a delivered error changes nothing. -/
def on_fetch_delivered (s : ClientState) (data : Except ServerFnError Fields) :
    ClientState :=
  match data with
  | .ok d =>
    { s with
      edit_field1 := d.field1
      edit_field2 := d.field2
      edit_field3 := d.field3
      edit_field4 := d.field4
      version := d.version }
  | .error _ => s

/-- Start of `on_save` (src/field_editor.rs lines 83-85): set `saving`,
clear the notice. -/
def on_save_begin (s : ClientState) : ClientState :=
  { s with saving := true, show_error := false }

/-- Completion of `on_save` (src/field_editor.rs lines 97-115): clear
`saving`, then match on the `update_fields` result.  `Ok(true)` triggers a
refetch; `Ok(false)` sets the notice and triggers a refetch; `Err(_)` sets
the notice only.  The boolean reports whether `source.set(())` was called
(a refetch was triggered). -/
def on_save_result (s : ClientState) (result : Except ServerFnError Bool) :
    ClientState × Bool :=
  let s1 := { s with saving := false }
  match result with
  | .ok true => (s1, true)
  | .ok false => ({ s1 with show_error := true }, true)
  | .error _ => ({ s1 with show_error := true }, false)

/-! ## Equation lemmas for the repository operations -/

lemma initDb_eq (m : DbManager) (db : DbState) :
    m.initDb db = (.ok (), { m with pool := some () },
      { tableCreated := true,
        rows := if db.rows = [] then [defaultFields] else db.rows }) := by
  unfold DbManager.initDb
  by_cases h : db.rows = [] <;> simp [h, List.length_eq_zero]

lemma update_fields_miss (m : DbManager) (db : DbState)
    (f1 f2 f3 f4 : String) (v : Int)
    (hpl : m.pool = some ()) (htc : db.tableCreated = true)
    (hfind : db.rows.find? (fun r => r.id == 1 && r.version == v) = none) :
    m.update_fields db f1 f2 f3 f4 v = .value (.ok false, db) := by
  unfold DbManager.update_fields
  rw [hpl]
  simp [htc, hfind]

lemma update_fields_hit (m : DbManager) (db : DbState)
    (f1 f2 f3 f4 : String) (v : Int) (r : Fields)
    (hpl : m.pool = some ()) (htc : db.tableCreated = true)
    (hr : db.rows = [r]) (hpred : (r.id == 1 && r.version == v) = true) :
    m.update_fields db f1 f2 f3 f4 v =
      .value (.ok true, { db with rows := [setClause f1 f2 f3 f4 r] }) := by
  unfold DbManager.update_fields
  rw [hpl]
  simp [htc, hr, List.find?, hpred]
  intro hcon
  have hi : r.id = 1 ∧ r.version = v := by simpa using hpred
  exact absurd hi.2 (hcon hi.1)

/-! ## Invariant lemmas -/

lemma inv_c0 : Inv c0 := by
  constructor
  · left; rfl
  · intro h; cases h

lemma step_preserves_inv (op : Op) (c : Config) (h : Inv c) : Inv (stepOp op c).1 := by
  obtain ⟨hrows, hpool⟩ := h
  cases op with
  | initOp =>
    have hstep : (stepOp Op.initOp c).1 =
        ⟨{ c.mgr with pool := some () },
         { tableCreated := true,
           rows := if c.db.rows = [] then [defaultFields] else c.db.rows }⟩ := by
      simp [stepOp, initDb_eq]
    rw [hstep]
    rcases hrows with hnil | ⟨r, hr, hid, hver⟩
    · refine ⟨Or.inr ⟨defaultFields, by simp [hnil], rfl, le_refl _⟩, fun _ => ⟨rfl, by simp [hnil]⟩⟩
    · have hne : ¬ c.db.rows = [] := by simp [hr]
      refine ⟨Or.inr ⟨r, by simp [hne, hr], hid, hver⟩, fun _ => ⟨rfl, by simp [hne, hr]⟩⟩
  | getOp =>
    have hstep : (stepOp Op.getOp c).1 = c := rfl
    rw [hstep]
    exact ⟨hrows, hpool⟩
  | updateOp f1 f2 f3 f4 v =>
    cases hpl : c.mgr.pool with
    | none =>
      have hstep : (stepOp (Op.updateOp f1 f2 f3 f4 v) c).1 = c := by
        simp [stepOp, DbManager.update_fields, hpl]
      rw [hstep]
      exact ⟨hrows, hpool⟩
    | some u =>
      cases u
      obtain ⟨htc, hne⟩ := hpool hpl
      rcases hrows with hnil | ⟨r, hr, hid, hver⟩
      · exact absurd hnil hne
      · cases hpred : (r.id == 1 && r.version == v) with
        | false =>
          have hfind : c.db.rows.find? (fun x => x.id == 1 && x.version == v) = none := by
            rw [hr]
            simp [List.find?, hpred]
          have hstep : (stepOp (Op.updateOp f1 f2 f3 f4 v) c).1 = c := by
            simp [stepOp, update_fields_miss c.mgr c.db f1 f2 f3 f4 v hpl htc hfind]
          rw [hstep]
          exact ⟨Or.inr ⟨r, hr, hid, hver⟩, fun _ => ⟨htc, hne⟩⟩
        | true =>
          have hstep : (stepOp (Op.updateOp f1 f2 f3 f4 v) c).1 =
              ⟨c.mgr, { c.db with rows := [setClause f1 f2 f3 f4 r] }⟩ := by
            simp [stepOp, update_fields_hit c.mgr c.db f1 f2 f3 f4 v r hpl htc hr hpred]
          rw [hstep]
          constructor
          · right
            refine ⟨setClause f1 f2 f3 f4 r, rfl, ?_, ?_⟩
            · simpa [setClause] using hid
            · simp only [setClause]
              omega
          · intro _
            exact ⟨htc, by simp⟩

lemma runTrace_inv (ops : List Op) (c : Config) (h : Inv c) : Inv (runTrace ops c) := by
  induction ops generalizing c with
  | nil => exact h
  | cons op ops ih => exact ih _ (step_preserves_inv op c h)

lemma step_preserves_pool (op : Op) (c : Config) (h : c.mgr.pool = some ()) :
    (stepOp op c).1.mgr.pool = some () := by
  cases op with
  | initOp => simp [stepOp, initDb_eq]
  | getOp => exact h
  | updateOp f1 f2 f3 f4 v =>
    cases hres : c.mgr.update_fields c.db f1 f2 f3 f4 v with
    | panicked msg => simp [stepOp, hres, h]
    | value p =>
      cases p with
      | mk r db1 => simp [stepOp, hres, h]

lemma runTrace_pool (ops : List Op) (c : Config) (h : c.mgr.pool = some ()) :
    (runTrace ops c).mgr.pool = some () := by
  induction ops generalizing c with
  | nil => exact h
  | cons op ops ih => exact ih _ (step_preserves_pool op c h)

/-! ## Claim theorems -/

/-- C1: whenever the stored record has committed version `v` and
`update_fields(f1, f2, f3, f4, v)` succeeds with `Ok(true)`, the stored
record afterwards has version `v + 1` and its four string fields are exactly
the submitted values. -/
theorem update_success_stores_submitted (m : DbManager) (db : DbState) (r : Fields)
    (f1 f2 f3 f4 : String) (v : Int) (db1 : DbState)
    (hr : db.rows = [r]) (hv : r.version = v)
    (hok : m.update_fields db f1 f2 f3 f4 v = .value (.ok true, db1)) :
    db1.rows = [{ id := 1, field1 := f1, field2 := f2, field3 := f3,
                  field4 := f4, version := v + 1 }] := by
  cases hpl : m.pool with
  | none =>
    unfold DbManager.update_fields at hok
    rw [hpl] at hok
    exact PanicOr.noConfusion hok
  | some u =>
    cases u
    cases htc : db.tableCreated with
    | false =>
      unfold DbManager.update_fields at hok
      rw [hpl] at hok
      simp [htc] at hok
    | true =>
      cases hpred : (r.id == 1 && r.version == v) with
      | false =>
        have hfind : db.rows.find? (fun x => x.id == 1 && x.version == v) = none := by
          rw [hr]; simp [List.find?, hpred]
        rw [update_fields_miss m db f1 f2 f3 f4 v hpl htc hfind] at hok
        simp at hok
      | true =>
        rw [update_fields_hit m db f1 f2 f3 f4 v r hpl htc hr hpred] at hok
        injection hok with h1
        injection h1 with ha hb
        have hi : r.id = 1 ∧ r.version = v := by simpa using hpred
        rw [← hb]
        simp [setClause, hi.1, hv]

/-- Witness for C1 at a concrete store: updating the seeded record with
("X","Y","Z","W") at expected version 1 stores those values at version 2. -/
theorem update_success_stores_submitted_witness :
    ({ tableCreated := true,
       rows := [setClause "X" "Y" "Z" "W" defaultFields] } : DbState).rows =
      [{ id := 1, field1 := "X", field2 := "Y", field3 := "Z", field4 := "W",
         version := 2 }] :=
  update_success_stores_submitted (DbManager.mk "s" (some ()))
    ({ tableCreated := true, rows := [defaultFields] } : DbState) defaultFields
    "X" "Y" "Z" "W" 1
    ({ tableCreated := true, rows := [setClause "X" "Y" "Z" "W" defaultFields] } : DbState)
    rfl rfl rfl

/-- C2: a version-checked update whose expected version matches no stored
row returns `Ok(false)` — the conflict is not an error — and leaves the
store completely unchanged. -/
theorem stale_update_conflict (m : DbManager) (db : DbState)
    (f1 f2 f3 f4 : String) (v : Int)
    (hpl : m.pool = some ()) (htc : db.tableCreated = true)
    (hstale : ∀ r ∈ db.rows, ¬(r.id = 1 ∧ r.version = v)) :
    m.update_fields db f1 f2 f3 f4 v = .value (.ok false, db) := by
  apply update_fields_miss m db f1 f2 f3 f4 v hpl htc
  rw [List.find?_eq_none]
  intro r hr
  simp only [Bool.and_eq_true, beq_iff_eq]
  exact hstale r hr

/-- Witness for C2: updating the seeded store with stale version 99 returns
`Ok(false)` and the store is untouched. -/
theorem stale_update_conflict_witness :
    (DbManager.mk "s" (some ())).update_fields
        ({ tableCreated := true, rows := [defaultFields] } : DbState)
        "X" "Y" "Z" "W" 99 =
      .value (.ok false, ({ tableCreated := true, rows := [defaultFields] } : DbState)) :=
  stale_update_conflict (DbManager.mk "s" (some ()))
    ({ tableCreated := true, rows := [defaultFields] } : DbState)
    "X" "Y" "Z" "W" 99 rfl rfl (by decide)

/-- C4: when `apply` reports a conflict (`Ok(false)`), the client sets the
notice, triggers a refetch, and once the refetch delivers the edit buffer
and local version equal the server record, not the unsaved edits. -/
theorem conflict_discards_edits (s : ClientState) (rec : Fields) :
    (on_save_result s (.ok false)).2 = true ∧
    (on_save_result s (.ok false)).1.show_error = true ∧
    (on_fetch_delivered (on_save_result s (.ok false)).1 (.ok rec)).edit_field1 = rec.field1 ∧
    (on_fetch_delivered (on_save_result s (.ok false)).1 (.ok rec)).edit_field2 = rec.field2 ∧
    (on_fetch_delivered (on_save_result s (.ok false)).1 (.ok rec)).edit_field3 = rec.field3 ∧
    (on_fetch_delivered (on_save_result s (.ok false)).1 (.ok rec)).edit_field4 = rec.field4 ∧
    (on_fetch_delivered (on_save_result s (.ok false)).1 (.ok rec)).version = rec.version :=
  ⟨rfl, rfl, rfl, rfl, rfl, rfl, rfl⟩

/-- C5: when `apply` fails with a transport or store error, the client sets
the notice but keeps the edit buffer and the locally held version unchanged
and triggers no refetch. -/
theorem save_error_preserves_edits (s : ClientState) (e : ServerFnError) :
    (on_save_result s (.error e)).2 = false ∧
    (on_save_result s (.error e)).1.show_error = true ∧
    (on_save_result s (.error e)).1.edit_field1 = s.edit_field1 ∧
    (on_save_result s (.error e)).1.edit_field2 = s.edit_field2 ∧
    (on_save_result s (.error e)).1.edit_field3 = s.edit_field3 ∧
    (on_save_result s (.error e)).1.edit_field4 = s.edit_field4 ∧
    (on_save_result s (.error e)).1.version = s.version :=
  ⟨rfl, rfl, rfl, rfl, rfl, rfl, rfl⟩

/-- C7: a second `initialize` on a non-empty store is idempotent: it
succeeds (schema creation is repeatable), leaves every stored row exactly
as it was — no reset of fields or version — and inserts nothing. -/
theorem reinit_noop_on_nonempty (m : DbManager) (db : DbState) (hne : db.rows ≠ []) :
    (m.initDb db).1 = .ok () ∧
    (m.initDb db).2.2.rows = db.rows ∧
    (m.initDb db).2.2.tableCreated = true := by
  rw [initDb_eq]
  refine ⟨rfl, ?_, rfl⟩
  simp [hne]

/-- Witness for C7: re-initializing a store already holding the seeded
record leaves its rows unchanged. -/
theorem reinit_noop_on_nonempty_witness :
    ((DbManager.new "s").initDb
        ({ tableCreated := true, rows := [defaultFields] } : DbState)).2.2.rows =
      [defaultFields] :=
  (reinit_noop_on_nonempty (DbManager.new "s")
    ({ tableCreated := true, rows := [defaultFields] } : DbState) (by decide)).2.1

/-- C9: `get_fields` is read-only and idempotent: a fetch step leaves the
configuration untouched, and two consecutive fetches with nothing in
between return identical outputs. -/
theorem fetch_readonly_idempotent (c : Config) :
    (stepOp Op.getOp c).1 = c ∧
    (stepOp Op.getOp ((stepOp Op.getOp c).1)).2 = (stepOp Op.getOp c).2 :=
  ⟨rfl, rfl⟩

lemma step_version (op : Op) (c : Config) (h : Inv c) :
    ((stepOp op c).2 = .updRes (.value (.ok true)) →
      ∃ v, recVersion c = some v ∧ 1 ≤ v ∧ recVersion (stepOp op c).1 = some (v + 1)) ∧
    ((stepOp op c).2 ≠ .updRes (.value (.ok true)) →
      (recVersion (stepOp op c).1 = recVersion c ∨
       (recVersion c = none ∧ recVersion (stepOp op c).1 = some 1))) := by
  obtain ⟨hrows, hpool⟩ := h
  cases op with
  | initOp =>
    constructor
    · intro hout
      exact absurd hout (by simp [stepOp, initDb_eq])
    · intro _
      rcases hrows with hnil | ⟨r, hr, hid, hver⟩
      · right
        constructor
        · simp [recVersion, hnil]
        · have hstep : (stepOp Op.initOp c).1.db.rows = [defaultFields] := by
            simp [stepOp, initDb_eq, hnil]
          simp [recVersion, hstep, List.find?, defaultFields]
      · left
        have hstep : (stepOp Op.initOp c).1.db.rows = c.db.rows := by
          simp [stepOp, initDb_eq, hr]
        simp [recVersion, hstep]
  | getOp =>
    constructor
    · intro hout
      exact absurd hout (by simp [stepOp])
    · intro _
      left
      rfl
  | updateOp f1 f2 f3 f4 v =>
    cases hpl : c.mgr.pool with
    | none =>
      have hstep : stepOp (Op.updateOp f1 f2 f3 f4 v) c =
          (c, .updRes (.panicked "Database not initialized")) := by
        simp [stepOp, DbManager.update_fields, hpl]
      constructor
      · intro hout
        rw [hstep] at hout
        exact absurd hout (by simp)
      · intro _
        left
        rw [hstep]
    | some u =>
      cases u
      obtain ⟨htc, hne⟩ := hpool hpl
      rcases hrows with hnil | ⟨r, hr, hid, hver⟩
      · exact absurd hnil hne
      · cases hpred : (r.id == 1 && r.version == v) with
        | false =>
          have hfind : c.db.rows.find? (fun x => x.id == 1 && x.version == v) = none := by
            rw [hr]; simp [List.find?, hpred]
          have hstep : stepOp (Op.updateOp f1 f2 f3 f4 v) c =
              (c, .updRes (.value (.ok false))) := by
            simp [stepOp, update_fields_miss c.mgr c.db f1 f2 f3 f4 v hpl htc hfind]
          constructor
          · intro hout
            rw [hstep] at hout
            exact absurd hout (by simp)
          · intro _
            left
            rw [hstep]
        | true =>
          have hstep : stepOp (Op.updateOp f1 f2 f3 f4 v) c =
              (⟨c.mgr, { c.db with rows := [setClause f1 f2 f3 f4 r] }⟩,
               .updRes (.value (.ok true))) := by
            simp [stepOp, update_fields_hit c.mgr c.db f1 f2 f3 f4 v r hpl htc hr hpred]
          constructor
          · intro _
            refine ⟨r.version, ?_, hver, ?_⟩
            · simp [recVersion, hr, List.find?, hid]
            · rw [hstep]
              simp [recVersion, List.find?, setClause, hid]
          · intro hout
            rw [hstep] at hout
            exact absurd rfl hout

/-- C3: along every trace of initialize, fetch and update operations from
the empty store, a step that returns `Ok(true)` raises the committed
version from some `v ≥ 1` to exactly `v + 1`, and every other step either
leaves the version unchanged or creates the record at version 1: the
version starts at 1, never decreases and never skips. -/
theorem version_lifecycle (ops : List Op) (op : Op) :
    ((stepOp op (runTrace ops c0)).2 = .updRes (.value (.ok true)) →
      ∃ v, recVersion (runTrace ops c0) = some v ∧ 1 ≤ v ∧
        recVersion (stepOp op (runTrace ops c0)).1 = some (v + 1)) ∧
    ((stepOp op (runTrace ops c0)).2 ≠ .updRes (.value (.ok true)) →
      (recVersion (stepOp op (runTrace ops c0)).1 = recVersion (runTrace ops c0) ∨
       (recVersion (runTrace ops c0) = none ∧
        recVersion (stepOp op (runTrace ops c0)).1 = some 1))) :=
  step_version op (runTrace ops c0) (runTrace_inv ops c0 inv_c0)

/-- Witness for C3: after initializing the empty store, a successful update
at expected version 1 moves the committed version to 2. -/
theorem version_lifecycle_witness :
    recVersion (stepOp (Op.updateOp "X" "Y" "Z" "W" 1) (runTrace [Op.initOp] c0)).1 =
      some 2 := by
  obtain ⟨v, hv, h1, h2⟩ :=
    (version_lifecycle [Op.initOp] (Op.updateOp "X" "Y" "Z" "W" 1)).1 (by decide)
  have hv1 : recVersion (runTrace [Op.initOp] c0) = some 1 := by decide
  have hveq : v = 1 := Option.some.inj ((hv.symm.trans hv1))
  rw [hveq] at h2
  exact h2.trans rfl

/-- C8: the first `initialize` on the empty store seeds exactly one record,
with the defined default field values and version 1, and after any further
sequence of operations the store still holds exactly one record with id 1:
the record is never deleted. -/
theorem seed_and_record_persistence (ops : List Op) :
    (stepOp Op.initOp c0).1.db.rows =
      [{ id := 1, field1 := "Default value 1", field2 := "Default value 2",
         field3 := "Default value 3", field4 := "Default value 4", version := 1 }] ∧
    ∃ r, (runTrace ops (stepOp Op.initOp c0).1).db.rows = [r] ∧ r.id = 1 := by
  constructor
  · rfl
  · have hinv := runTrace_inv ops _ (step_preserves_inv Op.initOp c0 inv_c0)
    have hpool : (runTrace ops (stepOp Op.initOp c0).1).mgr.pool = some () :=
      runTrace_pool ops _ (by rfl)
    obtain ⟨hrows, hp⟩ := hinv
    obtain ⟨htc, hne⟩ := hp hpool
    rcases hrows with hnil | ⟨r, hr, hid, hver⟩
    · exact absurd hnil hne
    · exact ⟨r, hr, hid⟩

lemma get_fields_no_panic (m : DbManager) (db : DbState) (h : m.pool = some ()) :
    (m.get_fields db).isPanic = false := by
  unfold DbManager.get_fields
  rw [h]
  dsimp only
  split
  · split <;> rfl
  · rfl

lemma update_fields_no_panic (m : DbManager) (db : DbState)
    (f1 f2 f3 f4 : String) (v : Int) (h : m.pool = some ()) :
    (m.update_fields db f1 f2 f3 f4 v).isPanic = false := by
  unfold DbManager.update_fields
  rw [h]
  dsimp only
  split
  · split <;> rfl
  · rfl

/-- C10: once `initialize` has returned `Ok`, the manager's pool is `Some`,
so the "Database not initialized" panic in `get_fields` and `update_fields`
cannot fire; conversely, calling either on a manager that never completed
`initialize` panics instead of returning an error value. -/
theorem init_pool_set_and_panic_behavior (m : DbManager) (db db2 : DbState)
    (s f1 f2 f3 f4 : String) (v : Int)
    (_hok : (m.initDb db).1 = .ok ()) :
    (m.initDb db).2.1.pool = some () ∧
    ((m.initDb db).2.1.get_fields db2).isPanic = false ∧
    ((m.initDb db).2.1.update_fields db2 f1 f2 f3 f4 v).isPanic = false ∧
    ((DbManager.new s).get_fields db2).isPanic = true ∧
    ((DbManager.new s).update_fields db2 f1 f2 f3 f4 v).isPanic = true := by
  have hp : (m.initDb db).2.1.pool = some () := by rw [initDb_eq]
  exact ⟨hp, get_fields_no_panic _ _ hp,
    update_fields_no_panic _ _ f1 f2 f3 f4 v hp, rfl, rfl⟩

/-- Witness for C10: initializing a fresh manager over the empty store
leaves the pool set. -/
theorem init_pool_set_and_panic_behavior_witness :
    ((DbManager.new "sqlite:/tmp/fields.db").initDb emptyDb).2.1.pool = some () :=
  (init_pool_set_and_panic_behavior (DbManager.new "sqlite:/tmp/fields.db")
    emptyDb emptyDb "s" "a" "b" "c" "d" 0 rfl).1

/-- C6: every store error surfaced by the server functions crosses the
remote boundary as the single opaque `ServerError` variant: no other error
shape ever reaches a remote caller from the repository. -/
theorem protocol_errors_single_variant (db : DbState) (f1 f2 f3 f4 : String) (v : Int)
    (ioInit ioGet ioUpd : StoreIO) :
    (∀ e db1, get_fields_server db ioInit ioGet = .value (.error e, db1) →
      ∃ msg, e = .ServerError msg) ∧
    (∀ e db1, update_fields_server db f1 f2 f3 f4 v ioInit ioUpd = .value (.error e, db1) →
      ∃ msg, e = .ServerError msg) := by
  constructor
  · intro e db1 h
    unfold get_fields_server at h
    split at h
    · injection h with hpair
      injection hpair with hexc hdb
      injection hexc with he
      exact ⟨_, he.symm⟩
    · split at h
      · exact PanicOr.noConfusion h
      · injection h with hpair
        injection hpair with hexc hdb
        injection hexc with he
        exact ⟨_, he.symm⟩
      · injection h with hpair
        injection hpair with hexc hdb
        exact Except.noConfusion hexc
  · intro e db1 h
    unfold update_fields_server at h
    split at h
    · injection h with hpair
      injection hpair with hexc hdb
      injection hexc with he
      exact ⟨_, he.symm⟩
    · split at h
      · exact PanicOr.noConfusion h
      · injection h with hpair
        injection hpair with hexc hdb
        injection hexc with he
        exact ⟨_, he.symm⟩
      · injection h with hpair
        injection hpair with hexc hdb
        exact Except.noConfusion hexc

/-- Witness for C6: a failing connect during the fetch server function is
re-emitted as the opaque `ServerError` variant. -/
theorem protocol_errors_single_variant_witness :
    ∃ msg, (ServerFnError.ServerError "disk I/O error" : ServerFnError) =
      .ServerError msg :=
  (protocol_errors_single_variant emptyDb "a" "b" "c" "d" 0
      (.fail (.ioError "disk I/O error")) .ok .ok).1
    (.ServerError "disk I/O error") emptyDb rfl

end FieldEditor
